import Mathlib

/-!
Shallow embedding of `hotlap-rs` (`src/main.rs`), an interactive terminal
hotlap timer, together with theorems settling claims about it.

The embedding maps the Rust code as follows.

* `struct Time { h, m, s, ms: i32 }` becomes `Time` with `Int` fields;
  every value the claims exercise fits easily in `i32`, so no wrap-around
  arithmetic is modelled.
* `struct Milestone { name, time, result: Option<f32> }` becomes
  `Milestone`; the `f32` delta is modelled over `ℚ`.  Every concrete
  delta evaluated below involves only values exactly representable in
  `f32`, so the rational model agrees with the `f32` computation there.
* `Instant` is a monotonic clock reading, modelled as a millisecond count
  (`Nat`); only its presence or absence matters to the claims.
* The file system touched by `load_json` / `save_json` is an association
  list from path strings to file contents.  File contents are modelled at
  the JSON-value level (`Json`), i.e. after text encoding/decoding, which
  is faithful for the round-trip and error claims: the JSON text written
  by `serde_json` re-parses to the identical JSON value.
* A Rust panic (`unwrap` on `Err`, index out of bounds) is `none` in an
  `Option`-valued result.
-/

namespace Hotlap

/-- `struct Time` of `main.rs`: hours, minutes, seconds, milliseconds,
each an `i32`. -/
structure Time where
  h : Int
  m : Int
  s : Int
  ms : Int
deriving DecidableEq

/-- `struct Milestone` of `main.rs`: a name, a reference `Time`, and the
optional delta (`result: Option<f32>`, modelled over `ℚ`). -/
structure Milestone where
  name : String
  time : Time
  result : Option ℚ
deriving DecidableEq

/-- `fn parse_millis(duration: Duration) -> (i32, i32, i32, i32)` of
`main.rs`; the input `Duration` is its total millisecond count
(`duration.as_millis()`, a non-negative integer). -/
def parse_millis (t : Nat) : Int × Int × Int × Int :=
  let millis := t
  let hours := (millis / (1000 * 60 * 60)) % 24
  let minutes := (millis / (1000 * 60)) % 60
  let seconds := (millis / 1000) % 60
  let ms := millis % 1000
  ((hours : Int), (minutes : Int), (seconds : Int), (ms : Int))

/-- The seconds value the `Advance` branch of `main.rs` (lines 207-214)
computes from a `Time`:
`(h * 60 * 60 + m * 60 + s) as f32 + ms as f32 / 100f32`.  The divisor
100 is taken verbatim from the source. -/
def codeSeconds (t : Time) : ℚ :=
  ((t.h * 60 * 60 + t.m * 60 + t.s : Int) : ℚ) + (t.ms : ℚ) / 100

/-- Modelled from the spec: `to_seconds` converts a `Duration` to seconds
with the milliseconds contributing `ms / 1000` as the fractional part.
This definition follows the spec's words and exists only to compare the
code's delta against the specified one. -/
def specSeconds (t : Time) : ℚ :=
  ((t.h * 60 * 60 + t.m * 60 + t.s : Int) : ℚ) + (t.ms : ℚ) / 1000

/-- The mutable state of `main`'s event loop: the milestone vector, the
current index (`usize`), the `is_started` flag, and the optional start
instant. -/
structure AppState where
  milestones : List Milestone
  current_idx : Nat
  is_started : Bool
  start_time : Option Nat
deriving DecidableEq

/-- The space-key handler of `main.rs` (lines 200-228).  `current_time`
is the elapsed time measured at the top of the loop iteration; `now` is
the clock reading taken for `Instant::now()` when a run starts.  The
`none` result models the panic of the unguarded index
`milestones[current_idx]`. -/
def spaceKey (st : AppState) (current_time : Time) (now : Nat) : Option AppState :=
  if !st.is_started then
    some { st with is_started := true, current_idx := 0, start_time := some now }
  else
    match st.milestones[st.current_idx]? with
    | none => none
    | some old_milestone =>
      let duration := codeSeconds current_time - codeSeconds old_milestone.time
      let milestone : Milestone :=
        { name := old_milestone.name, time := current_time, result := some duration }
      let milestones := st.milestones.set st.current_idx milestone
      if st.current_idx + 1 < milestones.length then
        some { st with milestones := milestones, current_idx := st.current_idx + 1 }
      else
        some { st with milestones := milestones, is_started := false, start_time := none }

/-- Iterates the space-key handler over a list of measured times: a
sequence of consecutive `Advance` events during a run (the started
branch of the handler never reads the clock argument). -/
def advanceN (st : AppState) (ts : List Time) : Option AppState :=
  match ts with
  | [] => some st
  | t :: rest =>
    match spaceKey st t 0 with
    | none => none
    | some st1 => advanceN st1 rest

/-- JSON values: the parsed form of file contents.  Numbers are modelled
as rationals; every number the program writes re-parses to the same
rational. -/
inductive Json where
  | null : Json
  | num : ℚ → Json
  | str : String → Json
  | arr : List Json → Json
  | obj : List (String × Json) → Json

/-- `serde_json` deserialization of an `i32` field: requires an integral
JSON number in the `i32` range. -/
def jsonToI32 : Json → Option Int
  | Json.num q =>
    if q.den = 1 ∧ -(2 ^ 31) ≤ q.num ∧ q.num < 2 ^ 31 then some q.num else none
  | _ => none

/-- Serialization of `Time` as derived by `serde` for the struct in
`main.rs`: an object with fields `h`, `m`, `s`, `ms` in declaration
order. -/
def timeToJson (t : Time) : Json :=
  Json.obj [("h", Json.num (t.h : ℚ)), ("m", Json.num (t.m : ℚ)),
    ("s", Json.num (t.s : ℚ)), ("ms", Json.num (t.ms : ℚ))]

/-- Serialization of `Milestone` as derived by `serde`: an object with
fields `name`, `time`, `result` (`null` for `None`). -/
def milestoneToJson (m : Milestone) : Json :=
  Json.obj [("name", Json.str m.name), ("time", timeToJson m.time),
    ("result", match m.result with | none => Json.null | some r => Json.num r)]

/-- Serialization of the milestone vector: a JSON array. -/
def milestonesToJson (ms : List Milestone) : Json :=
  Json.arr (ms.map milestoneToJson)

/-- Deserialization of `Time`: an object providing integral `i32` fields
`h`, `m`, `s`, `ms`. -/
def jsonToTime : Json → Option Time
  | Json.obj fields => do
    let h ← jsonToI32 (← fields.lookup "h")
    let m ← jsonToI32 (← fields.lookup "m")
    let s ← jsonToI32 (← fields.lookup "s")
    let ms ← jsonToI32 (← fields.lookup "ms")
    some { h := h, m := m, s := s, ms := ms }
  | _ => none

/-- Deserialization of the `result: Option<f32>` field: `null` (or an
absent field) is `None`, a number is `Some`. -/
def jsonToResult : Json → Option (Option ℚ)
  | Json.null => some none
  | Json.num q => some (some q)
  | _ => none

/-- Deserialization of `Milestone`: an object with a string `name`, a
`time`, and an optional `result`. -/
def milestoneFromJson : Json → Option Milestone
  | Json.obj fields => do
    let name ← match fields.lookup "name" with
      | some (Json.str s) => some s
      | _ => none
    let time ← jsonToTime (← fields.lookup "time")
    let result ← match fields.lookup "result" with
      | none => some none
      | some j => jsonToResult j
    some { name := name, time := time, result := result }
  | _ => none

/-- Deserialization of the milestone vector: a JSON array of milestone
objects. -/
def milestonesFromJson : Json → Option (List Milestone)
  | Json.arr xs => xs.mapM milestoneFromJson
  | _ => none

/-- The file system: an association list from paths to parsed file
contents. -/
abbrev FS := List (String × Json)

/-- Opening and reading the file at `path`; `none` when the file does not
exist (or, for the empty path, cannot be opened). -/
def fsRead (fs : FS) (path : String) : Option Json :=
  fs.lookup path

/-- Truncate-write of the file at `path`, creating it if absent. -/
def fsWrite (fs : FS) (path : String) (j : Json) : FS :=
  (path, j) :: fs.filter (fun e => e.1 != path)

/-- `fn load_json` of `main.rs`: opens the file at `path` (an error when
absent) and deserializes a milestone vector from it (an error when the
content has the wrong shape).  `none` is the `Err` case. -/
def load_json (fs : FS) (path : String) : Option (List Milestone) := do
  let file ← fsRead fs path
  milestonesFromJson file

/-- `fn save_json` of `main.rs`: serializes the milestone vector and
truncate-writes it to the file at `path`. -/
def save_json (fs : FS) (path : String) (milestones : List Milestone) : FS :=
  fsWrite fs path (milestonesToJson milestones)

/-- The startup load of `main` (line 76):
`load_json(Path::new("./target/debug/test.json")).unwrap()`.  `none` is
the panic of `unwrap` on a load error. -/
def startupMilestones (fs : FS) : Option (List Milestone) :=
  load_json fs "./target/debug/test.json"

/-- The r-key (Reset) handler of `main.rs` (lines 230-234): always
`milestones = load_json(Path::new("")).unwrap(); is_started = false;`
`start_time = None;`, with no guard on `is_started`.  `none` is the panic
of `unwrap` when the load from the empty path fails. -/
def rKey (fs : FS) (st : AppState) : Option AppState :=
  match load_json fs "" with
  | none => none
  | some ms => some { st with milestones := ms, is_started := false, start_time := none }

/-- The s-key (SaveReference) handler of `main.rs` (lines 235-239):
saves only when no run is active; the loop state is never touched. -/
def sKey (fs : FS) (st : AppState) : FS × AppState :=
  if !st.is_started then
    (save_json fs "./target/debug/test.json" st.milestones, st)
  else
    (fs, st)

/-- `fn format_tens` of `main.rs`: prepends one `0` to the decimal
rendering of `digit` when `digit < 10`. -/
def format_tens (digit : Int) : String :=
  if digit < 10 then "0" ++ Int.repr digit else Int.repr digit

/-- `fn format_hundreds` of `main.rs`: pads the decimal rendering of
`digit` to three characters for `digit < 100`. -/
def format_hundreds (digit : Int) : String :=
  if digit < 10 then "00" ++ Int.repr digit
  else if digit < 100 then "0" ++ Int.repr digit
  else Int.repr digit

/-- Left-pads a string with the character `0` to width `w`; the reference
notion of a zero-padded decimal string. -/
def zeroPad (w : Nat) (s : String) : String :=
  String.mk (List.replicate (w - s.length) '0' ++ s.data)

/-- The `i32` range condition on every field of a `Time`; automatic for
values that originate from the Rust struct. -/
def timeInRange (t : Time) : Prop :=
  (-(2 ^ 31) ≤ t.h ∧ t.h < 2 ^ 31) ∧ (-(2 ^ 31) ≤ t.m ∧ t.m < 2 ^ 31) ∧
    (-(2 ^ 31) ≤ t.s ∧ t.s < 2 ^ 31) ∧ (-(2 ^ 31) ≤ t.ms ∧ t.ms < 2 ^ 31)

instance (t : Time) : Decidable (timeInRange t) := by
  unfold timeInRange
  infer_instance

end Hotlap

namespace Hotlap

/-- Claim C3: for every non-negative millisecond count `t`, `parse_millis`
returns `(h, m, s, ms)` with `h = ⌊t / 3600000⌋ % 24`,
`m = ⌊t / 60000⌋ % 60`, `s = ⌊t / 1000⌋ % 60`, `ms = t % 1000`, and the
bounds `0 ≤ m < 60`, `0 ≤ s < 60`, `0 ≤ ms < 1000` hold. -/
theorem parse_millis_decomposition (t : Nat) :
    parse_millis t =
      ((((t / 3600000) % 24 : Nat) : Int), (((t / 60000) % 60 : Nat) : Int),
        (((t / 1000) % 60 : Nat) : Int), ((t % 1000 : Nat) : Int)) ∧
    0 ≤ (parse_millis t).2.1 ∧ (parse_millis t).2.1 < 60 ∧
    0 ≤ (parse_millis t).2.2.1 ∧ (parse_millis t).2.2.1 < 60 ∧
    0 ≤ (parse_millis t).2.2.2 ∧ (parse_millis t).2.2.2 < 1000 := by
  refine ⟨by norm_num [parse_millis], ?_, ?_, ?_, ?_, ?_, ?_⟩ <;>
    simp only [parse_millis] <;> omega

/-- The milestone the `Advance` branch writes over `milestones[cursor]`:
the old name, the measured time, and the code's delta. -/
theorem spaceKey_started (st : AppState) (t : Time) (now : Nat)
    (hs : st.is_started = true) (hi : st.current_idx < st.milestones.length) :
    ∃ old, st.milestones[st.current_idx]? = some old ∧
      spaceKey st t now =
        if st.current_idx + 1 < st.milestones.length then
          some { st with
            milestones := st.milestones.set st.current_idx
              ⟨old.name, t, some (codeSeconds t - codeSeconds old.time)⟩,
            current_idx := st.current_idx + 1 }
        else
          some { st with
            milestones := st.milestones.set st.current_idx
              ⟨old.name, t, some (codeSeconds t - codeSeconds old.time)⟩,
            is_started := false, start_time := none } := by
  refine ⟨st.milestones[st.current_idx], List.getElem?_eq_getElem hi, ?_⟩
  simp only [spaceKey, hs, Bool.not_true, Bool.false_eq_true, if_false,
    List.getElem?_eq_getElem hi, List.length_set]

/-- Advancing while every step stays short of the last milestone: the run
remains active and the cursor moves one step per event. -/
theorem advanceN_continue (ts : List Time) (st : AppState)
    (hs : st.is_started = true)
    (hlen : st.current_idx + ts.length < st.milestones.length) :
    ∃ st1, advanceN st ts = some st1 ∧ st1.is_started = true ∧
      st1.current_idx = st.current_idx + ts.length ∧
      st1.milestones.length = st.milestones.length := by
  induction ts generalizing st with
  | nil => exact ⟨st, rfl, hs, by simp, rfl⟩
  | cons t rest ih =>
    obtain ⟨old, hold, heq⟩ := spaceKey_started st t 0 hs (by simp at hlen; omega)
    rw [if_pos (by simp at hlen; omega)] at heq
    obtain ⟨st1, h1, h2, h3, h4⟩ :=
      ih { st with
            milestones := st.milestones.set st.current_idx
              ⟨old.name, t, some (codeSeconds t - codeSeconds old.time)⟩,
            current_idx := st.current_idx + 1 }
        hs (by simp at hlen ⊢; omega)
    refine ⟨st1, ?_, h2, ?_, ?_⟩
    · simp only [advanceN, heq, h1]
    · simp only [h3]; simp; omega
    · simp only [h4]; simp

/-- Advancing exactly up to the last milestone ends the run. -/
theorem advanceN_finish (ts : List Time) (st : AppState)
    (hs : st.is_started = true) (hne : ts ≠ [])
    (hlen : st.current_idx + ts.length = st.milestones.length) :
    ∃ st1, advanceN st ts = some st1 ∧ st1.is_started = false ∧
      st1.start_time = none ∧
      st1.milestones.length = st.milestones.length := by
  induction ts generalizing st with
  | nil => exact absurd rfl hne
  | cons t rest ih =>
    obtain ⟨old, hold, heq⟩ := spaceKey_started st t 0 hs (by simp at hlen; omega)
    by_cases hrest : rest = []
    · subst hrest
      rw [if_neg (by simp at hlen; omega)] at heq
      refine ⟨{ st with
          milestones := st.milestones.set st.current_idx
            ⟨old.name, t, some (codeSeconds t - codeSeconds old.time)⟩,
          is_started := false, start_time := none }, ?_, rfl, rfl, by simp⟩
      simp only [advanceN, heq]
    · have hpos : 0 < rest.length := List.length_pos.mpr hrest
      rw [if_pos (by simp at hlen; omega)] at heq
      obtain ⟨st1, h1, h2, h3, h4⟩ :=
        ih { st with
              milestones := st.milestones.set st.current_idx
                ⟨old.name, t, some (codeSeconds t - codeSeconds old.time)⟩,
              current_idx := st.current_idx + 1 }
          hs hrest (by simp at hlen ⊢; omega)
      exact ⟨st1, by simp only [advanceN, heq, h1], h2, h3, by simp at h4 ⊢; omega⟩

/-- Claim C2: for a ledger with N > 0 milestones and a started run
(cursor 0), N consecutive successful advance events keep the run active
for the first N - 1, with the cursor incremented by exactly one each
time, and end the run on the Nth: `is_started` becomes `false` and the
start instant is cleared; the run is still active after every shorter
prefix of advances. -/
theorem advance_run_shape (st : AppState) (ts : List Time)
    (hs : st.is_started = true) (h0 : st.current_idx = 0)
    (hN : ts.length = st.milestones.length) (hpos : 0 < ts.length) :
    (∀ k, k < ts.length → ∃ stk, advanceN st (ts.take k) = some stk ∧
      stk.is_started = true ∧ stk.current_idx = k) ∧
    (∃ stN, advanceN st ts = some stN ∧ stN.is_started = false ∧
      stN.start_time = none) := by
  constructor
  · intro k hk
    have htk : (ts.take k).length = k := by rw [List.length_take]; omega
    obtain ⟨stk, h1, h2, h3, _⟩ :=
      advanceN_continue (ts.take k) st hs (by rw [htk]; omega)
    rw [htk] at h3
    exact ⟨stk, h1, h2, by omega⟩
  · obtain ⟨stN, h1, h2, h3, _⟩ :=
      advanceN_finish ts st hs (List.length_pos.mp hpos) (by omega)
    exact ⟨stN, h1, h2, h3⟩

/-- Witness for C2 at a one-milestone ledger and one advance. -/
theorem advance_run_shape_witness :
    (∀ k, k < ([⟨0, 0, 9, 800⟩] : List Time).length →
      ∃ stk, advanceN ⟨[⟨"A", ⟨0, 0, 10, 0⟩, none⟩], 0, true, some 0⟩
          (([⟨0, 0, 9, 800⟩] : List Time).take k) = some stk ∧
        stk.is_started = true ∧ stk.current_idx = k) ∧
    (∃ stN, advanceN ⟨[⟨"A", ⟨0, 0, 10, 0⟩, none⟩], 0, true, some 0⟩
        ([⟨0, 0, 9, 800⟩] : List Time) = some stN ∧
      stN.is_started = false ∧ stN.start_time = none) :=
  advance_run_shape ⟨[⟨"A", ⟨0, 0, 10, 0⟩, none⟩], 0, true, some 0⟩
    ([⟨0, 0, 9, 800⟩] : List Time) rfl rfl rfl (by norm_num)

/-- Claim C7: during an active run an advance mutates only the milestone
at the cursor — its name is preserved, every other index is unchanged,
and the length (hence the order) of the list is unchanged — and afterward
the cursor advances by exactly one or the run ends with the start instant
cleared. -/
theorem advance_frame (st : AppState) (t : Time) (now : Nat)
    (hs : st.is_started = true) (hi : st.current_idx < st.milestones.length) :
    ∃ st1 old, spaceKey st t now = some st1 ∧
      st.milestones[st.current_idx]? = some old ∧
      st1.milestones.length = st.milestones.length ∧
      st1.milestones[st.current_idx]? =
        some ⟨old.name, t, some (codeSeconds t - codeSeconds old.time)⟩ ∧
      (∀ j, j ≠ st.current_idx → st1.milestones[j]? = st.milestones[j]?) ∧
      ((st1.is_started = true ∧ st1.current_idx = st.current_idx + 1) ∨
        (st1.is_started = false ∧ st1.start_time = none)) := by
  obtain ⟨old, hold, heq⟩ := spaceKey_started st t now hs hi
  by_cases hc : st.current_idx + 1 < st.milestones.length
  · rw [if_pos hc] at heq
    refine ⟨_, old, heq, hold, by simp, ?_, ?_, Or.inl ⟨hs, rfl⟩⟩
    · simpa using List.getElem?_set_self hi
    · intro j hj
      simpa using List.getElem?_set_ne (Ne.symm hj)
  · rw [if_neg hc] at heq
    refine ⟨_, old, heq, hold, by simp, ?_, ?_, Or.inr ⟨rfl, rfl⟩⟩
    · simpa using List.getElem?_set_self hi
    · intro j hj
      simpa using List.getElem?_set_ne (Ne.symm hj)

/-- Witness for C7 at a two-milestone ledger. -/
theorem advance_frame_witness :
    ∃ st1 old,
      spaceKey ⟨[⟨"A", ⟨0, 0, 10, 0⟩, none⟩, ⟨"B", ⟨0, 0, 25, 0⟩, none⟩],
          0, true, some 0⟩ ⟨0, 0, 9, 800⟩ 0 = some st1 ∧
      (⟨[⟨"A", ⟨0, 0, 10, 0⟩, none⟩, ⟨"B", ⟨0, 0, 25, 0⟩, none⟩],
          0, true, some 0⟩ : AppState).milestones[
        (⟨[⟨"A", ⟨0, 0, 10, 0⟩, none⟩, ⟨"B", ⟨0, 0, 25, 0⟩, none⟩],
          0, true, some 0⟩ : AppState).current_idx]? = some old ∧
      st1.milestones.length =
        (⟨[⟨"A", ⟨0, 0, 10, 0⟩, none⟩, ⟨"B", ⟨0, 0, 25, 0⟩, none⟩],
          0, true, some 0⟩ : AppState).milestones.length ∧
      st1.milestones[
        (⟨[⟨"A", ⟨0, 0, 10, 0⟩, none⟩, ⟨"B", ⟨0, 0, 25, 0⟩, none⟩],
          0, true, some 0⟩ : AppState).current_idx]? =
        some ⟨old.name, ⟨0, 0, 9, 800⟩,
          some (codeSeconds ⟨0, 0, 9, 800⟩ - codeSeconds old.time)⟩ ∧
      (∀ j, j ≠ (⟨[⟨"A", ⟨0, 0, 10, 0⟩, none⟩, ⟨"B", ⟨0, 0, 25, 0⟩, none⟩],
          0, true, some 0⟩ : AppState).current_idx →
        st1.milestones[j]? =
          (⟨[⟨"A", ⟨0, 0, 10, 0⟩, none⟩, ⟨"B", ⟨0, 0, 25, 0⟩, none⟩],
            0, true, some 0⟩ : AppState).milestones[j]?) ∧
      ((st1.is_started = true ∧ st1.current_idx =
          (⟨[⟨"A", ⟨0, 0, 10, 0⟩, none⟩, ⟨"B", ⟨0, 0, 25, 0⟩, none⟩],
            0, true, some 0⟩ : AppState).current_idx + 1) ∨
        (st1.is_started = false ∧ st1.start_time = none)) :=
  advance_frame ⟨[⟨"A", ⟨0, 0, 10, 0⟩, none⟩, ⟨"B", ⟨0, 0, 25, 0⟩, none⟩],
    0, true, some 0⟩ ⟨0, 0, 9, 800⟩ 0 rfl (by decide)

/-- Claim C4 (evidence of the code bug): with an active run and an empty
milestone list, the space-key handler does not reject the advance as a
named `NoActiveMilestone` error leaving the state unchanged; it indexes
`milestones[current_idx]` out of bounds and panics. -/
theorem advance_empty_milestones_panics :
    spaceKey ⟨[], 0, true, some 0⟩ ⟨0, 0, 1, 0⟩ 1000 = none := rfl

/-- Claim C1 (evidence of the code bug): at the spec's own scenario —
ledger `[A @ 00:00:10.000]`, advance measured at `00:00:09.800` — the
stored delta is `(9 + 800 / 100) - (10 + 0 / 100) = 7`, because the code
divides the millisecond field by 100; the claimed value
`to_seconds(measured) - to_seconds(reference)` with milliseconds
contributing `ms / 1000` is `-0.2`, and `7 ≠ -0.2`. -/
theorem advance_delta_uses_hundredths :
    spaceKey ⟨[⟨"A", ⟨0, 0, 10, 0⟩, none⟩], 0, true, some 0⟩ ⟨0, 0, 9, 800⟩ 9800 =
      some ⟨[⟨"A", ⟨0, 0, 9, 800⟩, some 7⟩], 0, false, none⟩ ∧
    specSeconds ⟨0, 0, 9, 800⟩ - specSeconds ⟨0, 0, 10, 0⟩ = -(1 / 5 : ℚ) ∧
    (7 : ℚ) ≠ -(1 / 5 : ℚ) := by
  refine ⟨?_, by norm_num [specSeconds], by norm_num⟩
  have h7 : codeSeconds ⟨0, 0, 9, 800⟩ - codeSeconds ⟨0, 0, 10, 0⟩ = 7 := by
    norm_num [codeSeconds]
  simp [spaceKey, h7]

/-- Claim C5 counterexample: with a run active (and, as always on a real
file system, no file named by the empty path), a Reset event is not a
rejected no-op leaving the state unchanged: the handler attempts the
reload and panics on `unwrap`. -/
theorem reset_while_running_changes_state :
    rKey [] ⟨[⟨"A", ⟨0, 0, 10, 0⟩, none⟩], 0, true, some 0⟩ ≠
      some ⟨[⟨"A", ⟨0, 0, 10, 0⟩, none⟩], 0, true, some 0⟩ := by
  intro h
  simp [rKey, load_json, fsRead] at h

/-- Claim C5 amended: the r-key handler runs unconditionally, with no
guard on `is_started`: it reloads from the empty path and unwraps the
result, so it panics when that load fails (the empty path names no
file), and were the load to succeed it would replace the milestones and
end the run even while a run is active. -/
theorem reset_unconditional (fs : FS) (st : AppState) :
    (fsRead fs "" = none → rKey fs st = none) ∧
    (∀ j ms, fsRead fs "" = some j → milestonesFromJson j = some ms →
      rKey fs st = some ⟨ms, st.current_idx, false, none⟩) := by
  constructor
  · intro h
    simp [rKey, load_json, h]
  · intro j ms h1 h2
    simp [rKey, load_json, h1, h2]

/-- Witness for the amended C5 at a concrete running state. -/
theorem reset_unconditional_witness :
    rKey [] ⟨[⟨"A", ⟨0, 0, 10, 0⟩, none⟩], 0, true, some 0⟩ = none :=
  (reset_unconditional [] ⟨[⟨"A", ⟨0, 0, 10, 0⟩, none⟩], 0, true, some 0⟩).1 rfl

/-- Claim C6: a SaveReference event while a run is active is rejected as
a no-op — no save is performed, the file system is untouched, and the
loop state is untouched; when no run is active the handler writes the
current milestone list to the save path and likewise leaves the state
unchanged. -/
theorem save_reference_policy (fs : FS) (st : AppState) :
    (st.is_started = true → sKey fs st = (fs, st)) ∧
    (st.is_started = false →
      sKey fs st = (save_json fs "./target/debug/test.json" st.milestones, st) ∧
      fsRead (sKey fs st).1 "./target/debug/test.json" =
        some (milestonesToJson st.milestones)) := by
  constructor
  · intro h
    simp [sKey, h]
  · intro h
    refine ⟨by simp [sKey, h], ?_⟩
    simp [sKey, h, save_json, fsWrite, fsRead, List.lookup]

/-- Witness for C6 at a concrete running state: the save is skipped. -/
theorem save_reference_policy_witness :
    sKey [] ⟨[⟨"A", ⟨0, 0, 10, 0⟩, none⟩], 0, true, some 0⟩ =
      ([], ⟨[⟨"A", ⟨0, 0, 10, 0⟩, none⟩], 0, true, some 0⟩) :=
  (save_reference_policy [] ⟨[⟨"A", ⟨0, 0, 10, 0⟩, none⟩], 0, true, some 0⟩).1 rfl

/-- Claim C9 counterexample: at startup with no file present the code
does not fall back to an empty ledger — the `unwrap` of the load result
panics. -/
theorem startup_load_failure_is_fatal :
    startupMilestones [] = none ∧ startupMilestones [] ≠ some [] := by
  constructor
  · rfl
  · simp [startupMilestones, load_json, fsRead]

/-- Claim C9 amended: a load failure — missing file or content of the
wrong shape — is returned to the caller as an error, never silently
treated as an empty list; at startup `main` unwraps that result, so a
load failure at startup panics the process, with no empty-ledger
fallback. -/
theorem load_failure_semantics (fs : FS) (path : String) :
    (fsRead fs path = none → load_json fs path = none) ∧
    (∀ j, fsRead fs path = some j → milestonesFromJson j = none →
      load_json fs path = none) ∧
    (fsRead fs "./target/debug/test.json" = none → startupMilestones fs = none) := by
  refine ⟨fun h => by simp [load_json, h], fun j h1 h2 => by simp [load_json, h1, h2],
    fun h => by simp [startupMilestones, load_json, h]⟩

/-- Witness for the amended C9: a missing file, a malformed file, and
the startup path. -/
theorem load_failure_semantics_witness :
    load_json [] "./target/debug/test.json" = none ∧
    load_json [("./target/debug/test.json", Json.null)] "./target/debug/test.json" = none ∧
    startupMilestones [] = none :=
  ⟨(load_failure_semantics [] "./target/debug/test.json").1 rfl,
    (load_failure_semantics [("./target/debug/test.json", Json.null)]
      "./target/debug/test.json").2.1 Json.null (by simp [fsRead]) rfl,
    (load_failure_semantics [] "").2.2 rfl⟩

/-- Deserializing a serialized `i32` field recovers the value. -/
theorem jsonToI32_intCast (n : Int) (h1 : -(2 ^ 31) ≤ n) (h2 : n < 2 ^ 31) :
    jsonToI32 (Json.num (n : ℚ)) = some n := by
  simp only [jsonToI32, Rat.den_intCast, Rat.num_intCast]
  rw [if_pos ⟨trivial, by omega, by omega⟩]

/-- Deserializing a serialized `Time` recovers it. -/
theorem jsonToTime_roundtrip (t : Time) (h : timeInRange t) :
    jsonToTime (timeToJson t) = some t := by
  obtain ⟨⟨h1, h2⟩, ⟨h3, h4⟩, ⟨h5, h6⟩, ⟨h7, h8⟩⟩ := h
  simp [jsonToTime, timeToJson, List.lookup,
    jsonToI32_intCast _ h1 h2, jsonToI32_intCast _ h3 h4,
    jsonToI32_intCast _ h5 h6, jsonToI32_intCast _ h7 h8]

/-- Deserializing a serialized `Milestone` recovers it. -/
theorem milestoneFromJson_roundtrip (m : Milestone) (h : timeInRange m.time) :
    milestoneFromJson (milestoneToJson m) = some m := by
  obtain ⟨name, time, result⟩ := m
  cases result <;>
    simp [milestoneFromJson, milestoneToJson, List.lookup, jsonToResult,
      jsonToTime_roundtrip _ h]

/-- Deserializing a serialized milestone vector recovers it. -/
theorem milestonesFromJson_roundtrip (ms : List Milestone)
    (h : ∀ m ∈ ms, timeInRange m.time) :
    milestonesFromJson (milestonesToJson ms) = some ms := by
  induction ms with
  | nil => rfl
  | cons m rest ih =>
    have ihr := ih fun x hx => h x (by simp [hx])
    simp only [milestonesToJson, milestonesFromJson, List.map_cons] at ihr ⊢
    rw [List.mapM_cons, milestoneFromJson_roundtrip m (h m (by simp)), ihr]
    rfl

/-- Claim C8: saving a milestone list and then loading it back succeeds
and yields a list of the same length whose entries have the same name
and the same reference time as the originals (in this model the whole
entries, deltas included, survive the round trip). -/
theorem save_load_roundtrip (fs : FS) (path : String) (ms : List Milestone)
    (h : ∀ m ∈ ms, timeInRange m.time) :
    ∃ ms', load_json (save_json fs path ms) path = some ms' ∧
      ms'.length = ms.length ∧
      ∀ i, i < ms.length → ∃ a b, ms[i]? = some a ∧ ms'[i]? = some b ∧
        b.name = a.name ∧ b.time = a.time := by
  refine ⟨ms, ?_, rfl, ?_⟩
  · simp [load_json, save_json, fsWrite, fsRead, List.lookup,
      milestonesFromJson_roundtrip ms h]
  · intro i hi
    exact ⟨ms[i], ms[i], List.getElem?_eq_getElem hi, List.getElem?_eq_getElem hi,
      rfl, rfl⟩

/-- Witness for C8 at a concrete one-milestone list. -/
theorem save_load_roundtrip_witness :
    ∃ ms', load_json (save_json [] "./target/debug/test.json"
        [⟨"A", ⟨0, 0, 10, 0⟩, none⟩]) "./target/debug/test.json" = some ms' ∧
      ms'.length = ([⟨"A", ⟨0, 0, 10, 0⟩, none⟩] : List Milestone).length ∧
      ∀ i, i < ([⟨"A", ⟨0, 0, 10, 0⟩, none⟩] : List Milestone).length →
        ∃ a b, ([⟨"A", ⟨0, 0, 10, 0⟩, none⟩] : List Milestone)[i]? = some a ∧
          ms'[i]? = some b ∧ b.name = a.name ∧ b.time = a.time :=
  save_load_roundtrip [] "./target/debug/test.json"
    [⟨"A", ⟨0, 0, 10, 0⟩, none⟩] (by decide)

set_option maxRecDepth 10000

/-- One-digit numbers render as one character. -/
theorem nat_repr_len1 : ∀ n : Nat, n < 10 → (Nat.repr n).length = 1 := by decide

/-- Two-digit numbers render as two characters. -/
theorem nat_repr_len2 : ∀ n : Nat, n < 100 → 10 ≤ n → (Nat.repr n).length = 2 := by
  decide

/-- Three-digit numbers render as three characters. -/
theorem nat_repr_len3 : ∀ n : Nat, n < 1000 → 100 ≤ n → (Nat.repr n).length = 3 := by
  decide

/-- Non-negative integers render like their absolute value. -/
theorem int_repr_nonneg (i : Int) (h : 0 ≤ i) : Int.repr i = Nat.repr i.toNat := by
  cases i with
  | ofNat n => rfl
  | negSucc n => exact absurd h (Int.negSucc_not_nonneg n).mp

/-- Padding a string already at the target width changes nothing. -/
theorem zeroPad_eq_self (w : Nat) (s : String) (h : s.length = w) : zeroPad w s = s := by
  obtain ⟨l⟩ := s
  replace h : l.length = w := h
  apply String.ext
  simp [zeroPad, h]

/-- Padding a one-character string to width two prepends one zero. -/
theorem append_zero_eq_zeroPad_two (s : String) (h : s.length = 1) :
    "0" ++ s = zeroPad 2 s := by
  apply String.ext
  simp [zeroPad, h, List.replicate]

/-- Padding a one-character string to width three prepends two zeros. -/
theorem append_zeros_eq_zeroPad_three (s : String) (h : s.length = 1) :
    "00" ++ s = zeroPad 3 s := by
  apply String.ext
  simp [zeroPad, h, List.replicate]

/-- Padding a two-character string to width three prepends one zero. -/
theorem append_zero_eq_zeroPad_three (s : String) (h : s.length = 2) :
    "0" ++ s = zeroPad 3 s := by
  apply String.ext
  simp [zeroPad, h, List.replicate]

/-- The padded string has exactly the target width. -/
theorem zeroPad_length (w : Nat) (s : String) (h : s.length ≤ w) :
    (zeroPad w s).length = w := by
  have h' : s.data.length ≤ w := h
  show (List.replicate (w - s.length) '0' ++ s.data).length = w
  simp only [List.length_append, List.length_replicate]
  have h2 : s.length = s.data.length := rfl
  omega

/-- Claim C10: for `0 ≤ i < 100`, `format_tens i` is exactly the
two-character zero-padded decimal rendering of `i`, and for
`0 ≤ i < 1000`, `format_hundreds i` is exactly the three-character
zero-padded decimal rendering of `i`; hence in-range hour, minute and
second fields display as two digits and the millisecond field as three
digits. -/
theorem format_digit_fields (i : Int) :
    (0 ≤ i → i < 100 →
      format_tens i = zeroPad 2 (Int.repr i) ∧ (format_tens i).length = 2) ∧
    (0 ≤ i → i < 1000 →
      format_hundreds i = zeroPad 3 (Int.repr i) ∧ (format_hundreds i).length = 3) := by
  constructor
  · intro h0 h100
    obtain ⟨n, rfl⟩ : ∃ n : Nat, i = (n : Int) := ⟨i.toNat, (Int.toNat_of_nonneg h0).symm⟩
    have hrepr : Int.repr ((n : Int)) = Nat.repr n := rfl
    have hn : n < 100 := by omega
    have heq : format_tens ((n : Int)) = zeroPad 2 (Int.repr ((n : Int))) := by
      by_cases h10 : n < 10
      · have hlen := nat_repr_len1 n h10
        simp only [format_tens, hrepr]
        rw [if_pos (by omega : ((n : Int)) < 10)]
        exact append_zero_eq_zeroPad_two _ hlen
      · have hlen := nat_repr_len2 n hn (by omega)
        simp only [format_tens, hrepr]
        rw [if_neg (by omega : ¬((n : Int)) < 10)]
        exact (zeroPad_eq_self 2 _ hlen).symm
    have hle : (Nat.repr n).length ≤ 2 := by
      by_cases h10 : n < 10
      · rw [nat_repr_len1 n h10]; omega
      · rw [nat_repr_len2 n hn (by omega)]
    refine ⟨heq, ?_⟩
    rw [heq, hrepr]
    exact zeroPad_length 2 _ hle
  · intro h0 h1000
    obtain ⟨n, rfl⟩ : ∃ n : Nat, i = (n : Int) := ⟨i.toNat, (Int.toNat_of_nonneg h0).symm⟩
    have hrepr : Int.repr ((n : Int)) = Nat.repr n := rfl
    have hn : n < 1000 := by omega
    have heq : format_hundreds ((n : Int)) = zeroPad 3 (Int.repr ((n : Int))) := by
      by_cases h10 : n < 10
      · have hlen := nat_repr_len1 n h10
        simp only [format_hundreds, hrepr]
        rw [if_pos (by omega : ((n : Int)) < 10)]
        exact append_zeros_eq_zeroPad_three _ hlen
      · by_cases h100 : n < 100
        · have hlen := nat_repr_len2 n h100 (by omega)
          simp only [format_hundreds, hrepr]
          rw [if_neg (by omega : ¬((n : Int)) < 10),
            if_pos (by omega : ((n : Int)) < 100)]
          exact append_zero_eq_zeroPad_three _ hlen
        · have hlen := nat_repr_len3 n hn (by omega)
          simp only [format_hundreds, hrepr]
          rw [if_neg (by omega : ¬((n : Int)) < 10),
            if_neg (by omega : ¬((n : Int)) < 100)]
          exact (zeroPad_eq_self 3 _ hlen).symm
    have hle : (Nat.repr n).length ≤ 3 := by
      by_cases h10 : n < 10
      · rw [nat_repr_len1 n h10]; omega
      · by_cases h100 : n < 100
        · rw [nat_repr_len2 n h100 (by omega)]; omega
        · rw [nat_repr_len3 n hn (by omega)]
    refine ⟨heq, ?_⟩
    rw [heq, hrepr]
    exact zeroPad_length 3 _ hle

/-- Witness for C10 at `i = 7`. -/
theorem format_digit_fields_witness :
    (format_tens 7 = zeroPad 2 (Int.repr 7) ∧ (format_tens 7).length = 2) ∧
    (format_hundreds 7 = zeroPad 3 (Int.repr 7) ∧ (format_hundreds 7).length = 3) :=
  ⟨(format_digit_fields 7).1 (by norm_num) (by norm_num),
    (format_digit_fields 7).2 (by norm_num) (by norm_num)⟩

end Hotlap
